import Mathlib

/-!
Verification of the code-reviewer extension core: diff resolution (git/svn),
pseudo-diff synthesis, prompt assembly with language resolution, and the
review orchestrator with its 50,000-character size budget.

Strings are modelled as Lean `String`s; the JavaScript string operations the
source uses (`split`, `trim`, `includes`, `replace`, `slice`, `toLowerCase`,
`startsWith`, `join`) are given explicit executable definitions over the
underlying character lists so that every function can be evaluated.
-/

/-- Whitespace test used by the model of the JavaScript `trim`. -/
def isWSp (c : Char) : Bool :=
  c == ' ' || c == '\t' || c == '\n' || c == '\r' || c == '\x0b' || c == '\x0c'

/-- Model of the JavaScript `String.prototype.trim`. -/
def jsTrim (s : String) : String :=
  String.mk (((s.data.dropWhile isWSp).reverse.dropWhile isWSp).reverse)

/-- Boolean prefix test on character lists (JS `startsWith`). -/
def isPre : List Char → List Char → Bool
  | [], _ => true
  | _ :: _, [] => false
  | a :: as, b :: bs => a == b && isPre as bs

/-- Boolean substring test on character lists (JS `includes`). -/
def hasSub (pat : List Char) : List Char → Bool
  | [] => isPre pat []
  | a :: rest => isPre pat (a :: rest) || hasSub pat rest

/-- The ECMAScript `GetSubstitution` processing applied to the replacement
string of JS `replace`, for a string search pattern (zero capture groups):
`$$` yields `$`, `$&` the matched text, `$` followed by the character with
code 96 (a backquote) the text of the subject before the match, `$`
followed by the character with code 39 (an apostrophe) the text of the
subject after the match; any other `$` (including `$1`, `$<`, or a
trailing `$`) stays literal. -/
def getSubstitution (matched before after : List Char) : List Char → List Char
  | [] => []
  | c :: rest =>
    if c = '$' then
      match rest with
      | [] => ['$']
      | d :: rest2 =>
        if d = '$' then '$' :: getSubstitution matched before after rest2
        else if d = '&' then matched ++ getSubstitution matched before after rest2
        else if d = Char.ofNat 96 then before ++ getSubstitution matched before after rest2
        else if d = Char.ofNat 39 then after ++ getSubstitution matched before after rest2
        else c :: getSubstitution matched before after (d :: rest2)
    else c :: getSubstitution matched before after rest

/-- Scanner for the JS `replace` with a string pattern: find the first
occurrence of `pat`, then splice in the `GetSubstitution`-processed
replacement; `acc` is the part of the subject already scanned (the text
before the current position). -/
def replFirstAux (pat repl acc : List Char) : List Char → List Char
  | [] =>
    if isPre pat [] then acc ++ getSubstitution pat acc [] repl else acc
  | a :: rest =>
    if isPre pat (a :: rest) then
      acc ++ getSubstitution pat acc ((a :: rest).drop pat.length) repl
        ++ (a :: rest).drop pat.length
    else replFirstAux pat repl (acc ++ [a]) rest

/-- Replace the first occurrence of `pat` by the `GetSubstitution`
processing of `repl` (JS `replace` with a string pattern replaces only the
first occurrence, and applies `$`-substitution to the replacement). -/
def replFirst (pat repl : List Char) (s : List Char) : List Char :=
  replFirstAux pat repl [] s

/-- Model of JS `slice(0, n)`. -/
def sliceTo (s : String) (n : Nat) : String := String.mk (s.data.take n)

/-- Model of JS `toLowerCase`. -/
def toLowerStr (s : String) : String := String.mk (s.data.map Char.toLower)

/-- Model of JS `split(c)` for a single-character separator, at the
character-list level.  Always returns a non-empty list of pieces. -/
def splitOnChar (c : Char) : List Char → List (List Char)
  | [] => [[]]
  | a :: rest =>
    match splitOnChar c rest with
    | [] => [[]]
    | r :: rs => if a == c then [] :: r :: rs else (a :: r) :: rs

/-- Model of JS `Array.prototype.join(sep)`. -/
def joinWith (sep : String) : List String → String
  | [] => ""
  | [x] => x
  | x :: y :: rest => x ++ sep ++ joinWith sep (y :: rest)

/-- Null-byte test on a character list. -/
def hasNull : List Char → Bool
  | [] => false
  | c :: rest => c == '\x00' || hasNull rest

/-- `isBinary` from the source: a string is binary iff it contains a null
byte (`content.includes('\0')`). -/
def isBinary (content : String) : Bool := hasNull content.data

/-! ## Prompt templates and language resolution (promptTemplates.ts) -/

/-- Per-language prompt template (promptTemplates.ts). -/
structure PromptTemplate where
  header : String
  fileLabel : String
  skipNotice : Nat → String

/-- Japanese template. -/
def jaTemplate : PromptTemplate :=
  ⟨"以下の差分をコードレビューしてください。\n各ファイルについて、問題点・改善案・良い点をそれぞれ具体的に指摘してください。",
   "ファイル",
   fun n => "> 注意: 差分サイズが上限を超えたため、" ++ toString n ++ "件のファイルをスキップしました。"⟩

/-- English template. -/
def enTemplate : PromptTemplate :=
  ⟨"Please review the following diff.\nFor each file, point out problems, suggestions for improvement, and good points specifically.",
   "File",
   fun n => "> Note: " ++ toString n ++ " file(s) were skipped because the diff size exceeded the limit."⟩

/-- Chinese (Simplified) template. -/
def zhTemplate : PromptTemplate :=
  ⟨"请对以下差异进行代码审查。\n对于每个文件，请具体指出问题、改进建议和优点。",
   "文件",
   fun n => "> 注意：由于差异大小超出限制，已跳过 " ++ toString n ++ " 个文件。"⟩

/-- Korean template. -/
def koTemplate : PromptTemplate :=
  ⟨"다음 차이를 코드 리뷰해주세요.\n각 파일에 대해 문제점, 개선 제안, 좋은 점을 구체적으로 지적해주세요.",
   "파일",
   fun n => "> 주의: 차이 크기가 제한을 초과하여 " ++ toString n ++ "개의 파일을 건너뛰었습니다."⟩

/-- French template. -/
def frTemplate : PromptTemplate :=
  ⟨"Veuillez effectuer une revue de code du diff suivant.\nPour chaque fichier, indiquez précisément les problèmes, les suggestions d\x27amélioration et les points positifs.",
   "Fichier",
   fun n => "> Remarque : " ++ toString n ++ " fichier(s) ont été ignorés car la taille du diff dépassait la limite."⟩

/-- German template. -/
def deTemplate : PromptTemplate :=
  ⟨"Bitte führen Sie ein Code-Review des folgenden Diffs durch.\nGeben Sie für jede Datei konkret Probleme, Verbesserungsvorschläge und positive Aspekte an.",
   "Datei",
   fun n => "> Hinweis: " ++ toString n ++ " Datei(en) wurden übersprungen, da die Diff-Größe das Limit überschritten hat."⟩

/-- Spanish template. -/
def esTemplate : PromptTemplate :=
  ⟨"Por favor, realice una revisión de código del siguiente diff.\nPara cada archivo, indique concretamente los problemas, sugerencias de mejora y puntos positivos.",
   "Archivo",
   fun n => "> Nota: Se omitieron " ++ toString n ++ " archivo(s) porque el tamaño del diff superó el límite."⟩

/-- `PROMPT_TEMPLATES`: the language-code keyed template table. -/
def PROMPT_TEMPLATES : List (String × PromptTemplate) :=
  [("ja", jaTemplate), ("en", enTemplate), ("zh-cn", zhTemplate), ("ko", koTemplate),
   ("fr", frTemplate), ("de", deTemplate), ("es", esTemplate)]

/-- `DEFAULT_LANG`: English. -/
def DEFAULT_LANG : String := "en"

/-- Key lookup in the template table (`lang in PROMPT_TEMPLATES` /
`PROMPT_TEMPLATES[lang]`). -/
def lookupTemplate (lang : String) : Option PromptTemplate :=
  (PROMPT_TEMPLATES.find? (fun p => p.1 == lang)).map (fun p => p.2)

/-- The supported language codes, as listed by the specification. -/
def supportedCodes : List String := ["ja", "en", "zh-cn", "ko", "fr", "de", "es"]

/-- `resolveLanguage` from promptTemplates.ts, with the two ambient reads
(configured `reviewLanguage` and `vscode.env.language`) passed explicitly. -/
def resolveLanguage (configured vscodeLanguage : String) : String :=
  if configured ≠ "auto" then
    if (lookupTemplate configured).isSome then configured else DEFAULT_LANG
  else
    let vscodeLang := toLowerStr vscodeLanguage
    if isPre "zh".data vscodeLang.data then "zh-cn"
    else
      let twoChar := String.mk (vscodeLang.data.take 2)
      if (lookupTemplate twoChar).isSome then twoChar else DEFAULT_LANG
/-! ## Pseudo-diff synthesis (buildPseudoDiff) -/

/-- The source's trailing-line pop:
`if (lines[lines.length - 1] === '') lines.pop()`. -/
def popTrailingEmpty (lines : List String) : List String :=
  if lines.getLast? = some "" then lines.dropLast else lines

/-- `buildPseudoDiff` from reviewDiff.ts: synthesize an all-`+` (new file) or
all-`-` (deleted file) unified diff from whole-file content.  The
`relativePath` parameter is, as in the source, unused in the body. -/
def buildPseudoDiff (relativePath content : String) (pfx : Char)
    (fromHeader toHeader : String) : String :=
  let lines := popTrailingEmpty ((splitOnChar '\n' content.data).map String.mk)
  let hunkHeader :=
    if pfx = '+' then "@@ -0,0 +1," ++ toString lines.length ++ " @@"
    else "@@ -1," ++ toString lines.length ++ " +0,0 @@"
  let diffLines := lines.map (fun line => String.mk (pfx :: line.data))
  joinWith "\n" (("--- " ++ fromHeader) :: ("+++ " ++ toHeader) :: hunkHeader :: diffLines)

/-! ## Git diff resolution (getDiffTextGit) -/

/-- Git change status, restricted to the cases the source distinguishes;
`otherChange` stands for every other member of the `Status` enum. -/
inductive GitStatus
  | untracked
  | intentToAdd
  | deleted
  | indexDeleted
  | otherChange
deriving DecidableEq

/-- The git repository handle, as the thin interface the source consumes:
change lists and the three content/diff queries.  `Except Unit` models a
call that may throw. -/
structure GitRepo where
  workingTreeChanges : List (String × GitStatus)
  indexChanges : List (String × GitStatus)
  showHEAD : String → Except Unit String
  diffWithHEAD : String → Except Unit String
  diffIndexWithHEAD : String → Except Unit String

/-- Status lookup from the source: working-tree changes concatenated with
index changes, first match on the file path wins. -/
def gitStatusOf (repo : GitRepo) (filePath : String) : Option GitStatus :=
  ((repo.workingTreeChanges ++ repo.indexChanges).find? (fun c => c.1 == filePath)).map
    (fun c => c.2)

/-- `getDiffTextGit`: per-status diff production for the git backend.
`fileContent` is the result of `vscode.workspace.fs.readFile` on the file.
`Except.ok none` is an absent diff, `Except.error` a thrown backend call. -/
def getDiffTextGit (repo : GitRepo) (fileContent : Except Unit String)
    (filePath relativePath : String) : Except Unit (Option String) :=
  match gitStatusOf repo filePath with
  | some GitStatus.untracked | some GitStatus.intentToAdd =>
    match fileContent with
    | Except.error e => Except.error e
    | Except.ok content =>
      if isBinary content then Except.ok none
      else Except.ok (some (buildPseudoDiff relativePath content '+' "/dev/null"
        ("b/" ++ relativePath)))
  | some GitStatus.deleted | some GitStatus.indexDeleted =>
    match repo.showHEAD filePath with
    | Except.error e => Except.error e
    | Except.ok content =>
      if isBinary content then Except.ok none
      else Except.ok (some (buildPseudoDiff relativePath content '-'
        ("a/" ++ relativePath) "/dev/null"))
  | _ =>
    match repo.diffWithHEAD filePath with
    | Except.error e => Except.error e
    | Except.ok d1 =>
      match (if d1 == "" || jsTrim d1 == "" then repo.diffIndexWithHEAD filePath
             else Except.ok d1) with
      | Except.error e => Except.error e
      | Except.ok d => Except.ok (if d == "" then none else some d)

/-! ## Svn diff resolution (getDiffTextSvn) -/

/-- Svn status characters the source recognizes: `A`, `D`, `M`, `?`, `!`. -/
inductive SvnStat
  | added
  | deletedS
  | modifiedS
  | unversioned
  | missing
deriving DecidableEq

/-- The svn backend context: results of the three `svn` subprocess commands
(keyed by the detected working-copy root) and of the filesystem read.
`diffOutput` is `none` when `svn diff` fails or prints only whitespace
(the source trims and discards empty output), `baseContent` is `none` when
`svn cat -r BASE` fails or prints nothing. -/
structure SvnCtx where
  statusOf : List String → Option SvnStat
  diffOutput : List String → Option String
  baseContent : List String → Option String
  fileContent : Except Unit String

/-- `getDiffTextSvn`: per-status diff production for the svn backend. -/
def getDiffTextSvn (ctx : SvnCtx) (scmRoot : List String)
    (relativePath : String) : Except Unit (Option String) :=
  match ctx.statusOf scmRoot with
  | some SvnStat.added | some SvnStat.unversioned =>
    match ctx.fileContent with
    | Except.error e => Except.error e
    | Except.ok content =>
      if isBinary content then Except.ok none
      else Except.ok (some (buildPseudoDiff relativePath content '+' "/dev/null"
        ("b/" ++ relativePath)))
  | some SvnStat.deletedS | some SvnStat.missing =>
    match ctx.diffOutput scmRoot with
    | some diffOut => Except.ok (some diffOut)
    | none =>
      match ctx.baseContent scmRoot with
      | none => Except.ok none
      | some content =>
        if isBinary content then Except.ok none
        else Except.ok (some (buildPseudoDiff relativePath content '-'
          ("a/" ++ relativePath) "/dev/null"))
  | _ => Except.ok (ctx.diffOutput scmRoot)

/-! ## Backend dispatch (findScmRoot / getFileDiffText)

Filesystem paths are modelled as lists of directory components with the
deepest component first; `[]` is the filesystem root, and `path.dirname`
is `List.tail` (the root being its own parent terminates the walk). -/

/-- Which marker directory a walk stopped at. -/
inductive ScmType
  | git
  | svn
deriving DecidableEq

/-- The ancestor walk of `findScmRoot`: at each directory first test for a
`.git` marker, then for a `.svn` marker, then move to the parent; the root
is the last directory tested. -/
def scmWalk (hasGitMarker hasSvnMarker : List String → Bool) :
    List String → Option (List String × ScmType)
  | [] =>
    if hasGitMarker [] then some ([], ScmType.git)
    else if hasSvnMarker [] then some ([], ScmType.svn)
    else none
  | comp :: parent =>
    if hasGitMarker (comp :: parent) then some (comp :: parent, ScmType.git)
    else if hasSvnMarker (comp :: parent) then some (comp :: parent, ScmType.svn)
    else scmWalk hasGitMarker hasSvnMarker parent

/-- `findScmRoot`: start the walk at the file's containing directory. -/
def findScmRoot (hasGitMarker hasSvnMarker : List String → Bool)
    (filePath : List String) : Option (List String × ScmType) :=
  scmWalk hasGitMarker hasSvnMarker filePath.tail

/-- The chain of directories the walk visits, from the containing directory
up to and including the filesystem root. -/
def ancestors : List String → List (List String)
  | [] => [[]]
  | comp :: parent => (comp :: parent) :: ancestors parent

/-- `getFileDiffText`: dispatcher.  A `some` git repository handle (the
`vscode.git` API recognized the path) is used exclusively; otherwise the
marker walk selects svn only when it stopped at a `.svn` marker. -/
def getFileDiffText (gitRepo : Option GitRepo) (gitFileContent : Except Unit String)
    (ctx : SvnCtx) (hasGitMarker hasSvnMarker : List String → Bool)
    (filePath : List String) (fsPath relativePath : String) :
    Except Unit (Option String) :=
  match gitRepo with
  | some repo => getDiffTextGit repo gitFileContent fsPath relativePath
  | none =>
    match findScmRoot hasGitMarker hasSvnMarker filePath with
    | some (root, ScmType.svn) => getDiffTextSvn ctx root relativePath
    | _ => Except.ok none

/-! ## Prompt assembly (buildPrompt) -/

/-- The ambient reads of `buildPrompt` / `resolveLanguage`, passed in as an
explicit configuration snapshot: configured review language, the editor UI
locale tag, and the per-language custom prompt setting
(`code-reviewer.reviewPrompt.<lang>`, default the empty string). -/
structure Config where
  reviewLanguage : String
  vscodeLanguage : String
  reviewPromptFor : String → String

/-- The custom-prompt placeholder token (written with escaped braces). -/
def PLACEHOLDER : String := "\x7b\x7bdiff\x7d\x7d"

/-- The diff body: one fenced block per file, blocks joined by blank lines. -/
def promptBody (template : PromptTemplate) (diffs : List (String × String)) : String :=
  joinWith "\n\n" (diffs.map (fun p =>
    joinWith "\n" ["### " ++ template.fileLabel ++ ": " ++ p.1, "```diff", p.2, "```"]))

/-- The skip footer: the template's skip notice when any file was skipped. -/
def skipFooter (template : PromptTemplate) (skippedCount : Nat) : String :=
  if skippedCount > 0 then "\n\n" ++ template.skipNotice skippedCount else ""

/-- Junk template used only to totalize the table lookup; `resolveLanguage`
always returns a key of the table, so it is never reached. -/
def fallbackTemplate : PromptTemplate := ⟨"", "", fun _ => ""⟩

/-- `buildPrompt` from reviewDiff.ts: resolve the language, render the diff
blocks, then either substitute into / append to a non-blank custom prompt,
or use the built-in header; the skip footer is appended in every case. -/
def buildPrompt (cfg : Config) (diffs : List (String × String))
    (skippedCount : Nat) : String :=
  let lang := resolveLanguage cfg.reviewLanguage cfg.vscodeLanguage
  let template := (lookupTemplate lang).getD fallbackTemplate
  let body := promptBody template diffs
  let footer := skipFooter template skippedCount
  let customPrompt := cfg.reviewPromptFor lang
  if jsTrim customPrompt ≠ "" then
    let result :=
      if hasSub PLACEHOLDER.data customPrompt.data then
        String.mk (replFirst PLACEHOLDER.data body.data customPrompt.data)
      else customPrompt ++ "\n\n" ++ body
    result ++ footer
  else template.header ++ "\n\n" ++ body ++ footer

/-! ## Review orchestrator (reviewDiff) -/

/-- Per-file outcome of `getFileDiffText` as observed by the orchestrator:
a thrown error, an absent diff, or a diff text. -/
inductive FileOutcome
  | fetchError
  | absent
  | diffText (d : String)
deriving DecidableEq

/-- `DIFF_SIZE_LIMIT`: 50,000 characters. -/
def DIFF_SIZE_LIMIT : Nat := 50000

/-- The orchestrator's loop over the selected targets.  `total` is
`targets.length` (used by the two skip-count formulas), `answer` the user's
choice in the truncation dialog (`true` = "Send first 50KB").  `none` means
the run was cancelled inside the loop; `some (diffs, skippedCount)` is the
loop's final accumulator state. -/
def processTargets (total : Nat) (answer : Bool) :
    List (String × FileOutcome) → List (String × String) → Nat → Nat →
    Option (List (String × String) × Nat)
  | [], diffs, _, skippedCount => some (diffs, skippedCount)
  | t :: rest, diffs, totalSize, skippedCount =>
    match t.2 with
    | FileOutcome.fetchError =>
      processTargets total answer rest diffs totalSize (skippedCount + 1)
    | FileOutcome.absent =>
      processTargets total answer rest diffs totalSize skippedCount
    | FileOutcome.diffText d =>
      if totalSize + d.length > DIFF_SIZE_LIMIT then
        if diffs.length = 0 then
          if answer then
            some (diffs ++ [(t.1, sliceTo d DIFF_SIZE_LIMIT)],
                  skippedCount + (total - 1))
          else none
        else some (diffs, skippedCount + (total - diffs.length))
      else
        processTargets total answer rest (diffs ++ [(t.1, d)])
          (totalSize + d.length) skippedCount

/-- `reviewDiff`: run the loop on the selection; deliver
`some (diffs, skippedCount)` (the prompt built from them is handed to the
chat sink) unless the user cancelled or no diff was accepted. -/
def reviewDiff (targets : List (String × FileOutcome)) (answer : Bool) :
    Option (List (String × String) × Nat) :=
  match processTargets targets.length answer targets [] 0 0 with
  | none => none
  | some (diffs, skippedCount) =>
    if diffs.length = 0 then none else some (diffs, skippedCount)
/-! ## Concrete instances used by witnesses and counterexamples -/

/-- A 30,000-character diff used by concrete size-budget runs. -/
def d30k : String := String.mk (List.replicate 30000 'a')

/-- Witness for C2: a concrete 50,001-character diff. -/
def bigDiff : String := String.mk (List.replicate 50001 'x')

/-- C4 counterexample marker layout: a `.git` marker at directory `sub`
(the git API nevertheless did not recognize the path), a `.svn` marker at
the filesystem root. -/
def gitMarkerCE : List String → Bool := fun d => d == ["sub"]

/-- C4 counterexample: the `.svn` marker sits at the filesystem root. -/
def svnMarkerCE : List String → Bool := fun d => d == ([] : List String)

/-- C4/C4-witness svn context: a modified file whose `svn diff` prints
`SVNDIFF`. -/
def svnCtxCE : SvnCtx :=
  ⟨fun _ => some SvnStat.modifiedS, fun _ => some "SVNDIFF", fun _ => none, Except.ok ""⟩

/-- C4 witness marker layout: no `.git` marker anywhere, `.svn` at the
filesystem root. -/
def gitMarkerNone : List String → Bool := fun _ => false

/-- C4 witness marker layout, svn side. -/
def svnMarkerRoot : List String → Bool := fun d => d == ([] : List String)

/-- C5 counterexample: a backend diff output containing a null byte. -/
def nullDiffStr : String := "a\x00b"

/-- C5 counterexample repository: the file is in no change list (ordinary
modified path), and `diffWithHEAD` returns output containing a null byte. -/
def repoNullDiff : GitRepo :=
  ⟨[], [], fun _ => Except.ok "", fun _ => Except.ok nullDiffStr, fun _ => Except.ok ""⟩

/-- C5 witness repository: an untracked text file. -/
def repoUntracked : GitRepo :=
  ⟨[("n.txt", GitStatus.untracked)], [], fun _ => Except.ok "", fun _ => Except.ok "",
   fun _ => Except.ok ""⟩

/-- C6 witness configuration: English everywhere, with a custom review
prompt ending in the placeholder. -/
def cfgCustom : Config :=
  ⟨"en", "en", fun _ => "Focus on security.\n\n\x7b\x7bdiff\x7d\x7d"⟩

/-- C6 counterexample configuration: custom prompt `A` + placeholder +
`B`. -/
def cfgDollar : Config :=
  ⟨"en", "en", fun _ => "A\x7b\x7bdiff\x7d\x7dB"⟩

/-! ## Helper lemmas about the string operations -/

example : resolveLanguage "fr" "en" = "fr" := by decide
example : resolveLanguage "xx" "en" = "en" := by decide
example : resolveLanguage "auto" "zh-TW" = "zh-cn" := by decide
example : resolveLanguage "auto" "ja" = "ja" := by decide
example : resolveLanguage "auto" "pt-br" = "en" := by decide
example :
    buildPseudoDiff "x.ts" "a\nb\n" '+' "/dev/null" "b/x.ts" =
      "--- /dev/null\n+++ b/x.ts\n@@ -0,0 +1,2 @@\n+a\n+b" := by decide
example :
    buildPseudoDiff "x.ts" "a\nb" '-' "a/x.ts" "/dev/null" =
      "--- a/x.ts\n+++ /dev/null\n@@ -1,2 +0,0 @@\n-a\n-b" := by decide
example :
    reviewDiff [("a", FileOutcome.diffText "x"), ("b", FileOutcome.absent),
                ("c", FileOutcome.fetchError)] true =
      some ([("a", "x")], 1) := by decide

lemma sliceTo_length (s : String) (n : Nat) :
    (sliceTo s n).length = min n s.length := by
  show (s.data.take n).length = _
  exact List.length_take n s.data

lemma processTargets_sizeInv (ts : List (String × FileOutcome)) :
    ∀ (total : Nat) (answer : Bool) (acc : List (String × String))
      (sz sk : Nat) (res : List (String × String) × Nat),
    processTargets total answer ts acc sz sk = some res →
    sz = (acc.map (fun p => p.2.length)).sum →
    (∀ p ∈ acc, p.2.length ≤ DIFF_SIZE_LIMIT) →
    sz ≤ DIFF_SIZE_LIMIT →
    (∀ p ∈ res.1, p.2.length ≤ DIFF_SIZE_LIMIT) ∧
      (res.1.map (fun p => p.2.length)).sum ≤ DIFF_SIZE_LIMIT := by
  induction ts with
  | nil =>
    intro total answer acc sz sk res hres hsz hall hle
    rw [processTargets] at hres
    cases hres
    exact ⟨hall, hsz ▸ hle⟩
  | cons t rest ih =>
    intro total answer acc sz sk res hres hsz hall hle
    rw [processTargets] at hres
    rcases t with ⟨name, outcome⟩
    cases outcome with
    | fetchError => exact ih total answer acc sz _ res hres hsz hall hle
    | absent => exact ih total answer acc sz _ res hres hsz hall hle
    | diffText d =>
      dsimp only at hres
      by_cases hover : sz + d.length > DIFF_SIZE_LIMIT
      · rw [if_pos hover] at hres
        by_cases hempty : acc.length = 0
        · rw [if_pos hempty] at hres
          cases answer with
          | false => simp at hres
          | true =>
            simp only [if_pos rfl] at hres
            cases hres
            have hacc : acc = [] := List.length_eq_zero.mp hempty
            subst hacc
            refine ⟨?_, ?_⟩
            · intro p hp
              simp only [List.nil_append, List.mem_singleton] at hp
              subst hp
              simp [sliceTo_length]
            · simp [sliceTo_length]
        · rw [if_neg hempty] at hres
          cases hres
          exact ⟨hall, hsz ▸ hle⟩
      · rw [if_neg hover] at hres
        push_neg at hover
        refine ih total answer (acc ++ [(name, d)]) (sz + d.length) _ res hres ?_ ?_ hover
        · simp [hsz]
        · intro p hp
          rcases List.mem_append.mp hp with hp' | hp'
          · exact hall p hp'
          · simp only [List.mem_singleton] at hp'
            subst hp'
            simp only []
            omega

lemma isPre_iff (p s : List Char) : isPre p s = true ↔ ∃ t, s = p ++ t := by
  induction p generalizing s with
  | nil => simp [isPre]
  | cons a as ih =>
    cases s with
    | nil => simp [isPre]
    | cons b bs =>
      simp only [isPre, Bool.and_eq_true, beq_iff_eq, ih, List.cons_append,
        List.cons.injEq]
      constructor
      · rintro ⟨rfl, t, rfl⟩; exact ⟨t, rfl, rfl⟩
      · rintro ⟨t, rfl, rfl⟩; exact ⟨rfl, t, rfl⟩

lemma hasSub_iff (p s : List Char) :
    hasSub p s = true ↔ ∃ pre post, s = pre ++ p ++ post := by
  induction s with
  | nil =>
    simp only [hasSub, isPre_iff]
    constructor
    · rintro ⟨t, ht⟩
      exact ⟨[], t, by simpa using ht⟩
    · rintro ⟨pre, post, h⟩
      have h' : pre = [] ∧ p = [] ∧ post = [] := by
        have := h.symm
        simpa [List.append_eq_nil] using this
      exact ⟨[], by simp [h'.2.1]⟩
  | cons a rest ih =>
    simp only [hasSub, Bool.or_eq_true, isPre_iff, ih]
    constructor
    · rintro (⟨t, ht⟩ | ⟨pre, post, h⟩)
      · exact ⟨[], t, by simpa using ht⟩
      · exact ⟨a :: pre, post, by simp [h]⟩
    · rintro ⟨pre, post, h⟩
      cases pre with
      | nil => exact Or.inl ⟨post, by simpa using h⟩
      | cons x xs =>
        right
        have h' : a = x ∧ rest = xs ++ (p ++ post) := by simpa using h
        exact ⟨xs, post, by simp [h'.2]⟩

lemma hasNull_append (l1 l2 : List Char) :
    hasNull (l1 ++ l2) = (hasNull l1 || hasNull l2) := by
  induction l1 with
  | nil => simp [hasNull]
  | cons c rest ih => simp [hasNull, ih, Bool.or_assoc]

lemma isBinary_append (s t : String) :
    isBinary (s ++ t) = (isBinary s || isBinary t) := by
  show hasNull (s.data ++ t.data) = _
  exact hasNull_append s.data t.data

lemma isBinary_joinWith (sep : String) (l : List String)
    (hsep : isBinary sep = false) (h : ∀ x ∈ l, isBinary x = false) :
    isBinary (joinWith sep l) = false := by
  induction l with
  | nil => rfl
  | cons x rest ih =>
    cases rest with
    | nil => simpa [joinWith] using h x (by simp)
    | cons y ys =>
      rw [joinWith, isBinary_append, isBinary_append]
      have hx := h x (by simp)
      have hr := ih (fun z hz => h z (by simp [hz]))
      simp [hx, hsep, hr]

lemma digitChar_ne_null (m : Nat) : Nat.digitChar m ≠ '\x00' := by
  by_cases h : m < 16
  · interval_cases m <;> decide
  · unfold Nat.digitChar
    simp only [if_neg (show ¬ m = 0 by omega), if_neg (show ¬ m = 1 by omega),
      if_neg (show ¬ m = 2 by omega), if_neg (show ¬ m = 3 by omega),
      if_neg (show ¬ m = 4 by omega), if_neg (show ¬ m = 5 by omega),
      if_neg (show ¬ m = 6 by omega), if_neg (show ¬ m = 7 by omega),
      if_neg (show ¬ m = 8 by omega), if_neg (show ¬ m = 9 by omega),
      if_neg (show ¬ m = 10 by omega), if_neg (show ¬ m = 11 by omega),
      if_neg (show ¬ m = 12 by omega), if_neg (show ¬ m = 13 by omega),
      if_neg (show ¬ m = 14 by omega), if_neg (show ¬ m = 15 by omega)]
    decide

lemma hasNull_toDigitsCore (b fuel n : Nat) (ds : List Char)
    (h : hasNull ds = false) : hasNull (Nat.toDigitsCore b fuel n ds) = false := by
  induction fuel generalizing n ds with
  | zero => simpa [Nat.toDigitsCore] using h
  | succ f ih =>
    unfold Nat.toDigitsCore
    dsimp only
    have hd : hasNull (Nat.digitChar (n % b) :: ds) = false := by
      simp [hasNull, digitChar_ne_null, h]
    split
    · exact hd
    · exact ih (n / b) _ hd

lemma isBinary_natToString (n : Nat) : isBinary (toString n) = false := by
  show hasNull (Nat.toDigits 10 n).asString.data = false
  unfold Nat.toDigits
  exact hasNull_toDigitsCore 10 (n + 1) n [] rfl

lemma splitOnChar_noNull (c : Char) (l : List Char) (h : hasNull l = false) :
    ∀ p ∈ splitOnChar c l, hasNull p = false := by
  induction l with
  | nil =>
    intro p hp
    simp only [splitOnChar, List.mem_singleton] at hp
    subst hp; rfl
  | cons a rest ih =>
    have ha : (a == '\x00') = false := by
      by_contra hne
      simp only [hasNull, Bool.or_eq_false_iff] at h
      exact hne (by simp [h.1])
    have hr : hasNull rest = false := by
      simp only [hasNull, Bool.or_eq_false_iff] at h
      exact h.2
    intro p hp
    rw [splitOnChar] at hp
    rcases hrec : splitOnChar c rest with _ | ⟨r, rs⟩
    · rw [hrec] at hp
      dsimp only at hp
      simp only [List.mem_singleton] at hp
      subst hp; rfl
    · rw [hrec] at hp
      dsimp only at hp
      by_cases hac : (a == c) = true
      · rw [if_pos hac] at hp
        rcases List.mem_cons.mp hp with rfl | hp'
        · rfl
        · exact ih hr p (hrec ▸ hp')
      · rw [if_neg hac] at hp
        rcases List.mem_cons.mp hp with rfl | hp'
        · simp only [hasNull, ha, Bool.false_or]
          exact ih hr r (hrec ▸ List.mem_cons_self r rs)
        · exact ih hr p (hrec ▸ List.mem_cons.mpr (Or.inr hp'))

lemma popTrailingEmpty_subset (ls : List String) (x : String)
    (hx : x ∈ popTrailingEmpty ls) : x ∈ ls := by
  unfold popTrailingEmpty at hx
  split at hx
  · exact List.dropLast_subset ls hx
  · exact hx

lemma isBinary_buildPseudoDiff (rel content : String) (pfx : Char)
    (fh th : String) (hc : isBinary content = false)
    (hfh : isBinary fh = false) (hth : isBinary th = false)
    (hp : (pfx == '\x00') = false) :
    isBinary (buildPseudoDiff rel content pfx fh th) = false := by
  unfold buildPseudoDiff
  apply isBinary_joinWith
  · rfl
  · intro x hx
    simp only [List.mem_cons] at hx
    rcases hx with rfl | rfl | rfl | hx
    · rw [isBinary_append]; simp [hfh]; rfl
    · rw [isBinary_append]; simp [hth]; rfl
    · split
      · rw [isBinary_append, isBinary_append]
        simp [isBinary_natToString]
        constructor <;> rfl
      · rw [isBinary_append, isBinary_append]
        simp [isBinary_natToString]
        constructor <;> rfl
    · rcases List.mem_map.mp hx with ⟨line, hline, rfl⟩
      show hasNull (pfx :: line.data) = false
      have hline' : isBinary line = false := by
        rcases List.mem_map.mp (popTrailingEmpty_subset _ _ hline) with ⟨lc, hlc, rfl⟩
        exact splitOnChar_noNull '\n' content.data hc lc hlc
      simp [hasNull, hp]
      exact hline'

lemma lookupTemplate_isSome_iff (lang : String) :
    (lookupTemplate lang).isSome = true ↔ lang ∈ supportedCodes := by
  simp only [lookupTemplate, PROMPT_TEMPLATES, supportedCodes, Option.isSome_map',
    List.find?_isSome, List.mem_cons, List.not_mem_nil, or_false, beq_iff_eq]
  constructor
  · rintro ⟨x, hx, hx2⟩
    rcases hx with rfl | rfl | rfl | rfl | rfl | rfl | rfl <;> simp_all
  · intro h
    rcases h with rfl | rfl | rfl | rfl | rfl | rfl | rfl
    · exact ⟨("ja", jaTemplate), by simp⟩
    · exact ⟨("en", enTemplate), by simp⟩
    · exact ⟨("zh-cn", zhTemplate), by simp⟩
    · exact ⟨("ko", koTemplate), by simp⟩
    · exact ⟨("fr", frTemplate), by simp⟩
    · exact ⟨("de", deTemplate), by simp⟩
    · exact ⟨("es", esTemplate), by simp⟩

lemma scmWalk_eq_find (g s : List String → Bool) (d : List String) :
    scmWalk g s d =
      ((ancestors d).find? (fun a => g a || s a)).map
        (fun r => (r, if g r then ScmType.git else ScmType.svn)) := by
  induction d with
  | nil =>
    cases hg : g [] <;> cases hs : s [] <;>
      simp [scmWalk, ancestors, List.find?, hg, hs]
  | cons comp parent ih =>
    cases hg : g (comp :: parent) <;> cases hs : s (comp :: parent) <;>
      simp [scmWalk, ancestors, List.find?, hg, hs, ih]

lemma getSubstitution_no_dollar (m b a : List Char) (repl : List Char)
    (h : '$' ∉ repl) : getSubstitution m b a repl = repl := by
  induction repl with
  | nil => rfl
  | cons c rest ih =>
    have hc : ¬ c = '$' := fun hc => h (hc ▸ List.mem_cons_self c rest)
    have hrest : '$' ∉ rest := fun hr => h (List.mem_cons.mpr (Or.inr hr))
    rw [getSubstitution.eq_def]
    dsimp only
    rw [if_neg hc, ih hrest]

lemma replFirstAux_append (p r post : List Char) (hp : p ≠ []) :
    ∀ (pre acc : List Char),
    (∀ i, i < pre.length → isPre p ((pre ++ p ++ post).drop i) = false) →
    replFirstAux p r acc (pre ++ p ++ post)
      = acc ++ pre ++ getSubstitution p (acc ++ pre) post r ++ post := by
  intro pre
  induction pre with
  | nil =>
    intro acc h
    cases p with
    | nil => exact absurd rfl hp
    | cons pc ptl =>
      have hpre : isPre (pc :: ptl) (pc :: (ptl ++ post)) = true :=
        (isPre_iff _ _).mpr ⟨post, by simp⟩
      have hdrop : (pc :: (ptl ++ post)).drop (pc :: ptl).length = post := by
        have := List.drop_left (pc :: ptl) post
        simp only [List.cons_append] at this
        exact this
      show replFirstAux (pc :: ptl) r acc (pc :: (ptl ++ post)) = _
      rw [replFirstAux, if_pos hpre, hdrop]
      simp
  | cons c cs ih =>
    intro acc h
    have h0 : isPre p (c :: (cs ++ (p ++ post))) = false := by
      simpa using h 0 (by simp)
    have h' : ∀ i, i < cs.length → isPre p ((cs ++ p ++ post).drop i) = false :=
      fun i hi => by simpa using h (i + 1) (by simpa using Nat.succ_lt_succ hi)
    have ih' := ih (acc ++ [c]) h'
    show replFirstAux p r acc (c :: (cs ++ p ++ post))
      = acc ++ (c :: cs) ++ getSubstitution p (acc ++ (c :: cs)) post r ++ post
    rw [replFirstAux, if_neg (by simp [h0]), ih']
    simp

lemma replFirst_append (p r pre post : List Char) (hp : p ≠ [])
    (h : ∀ i, i < pre.length → isPre p ((pre ++ p ++ post).drop i) = false) :
    replFirst p r (pre ++ p ++ post)
      = pre ++ getSubstitution p pre post r ++ post := by
  have := replFirstAux_append p r post hp pre [] h
  simpa [replFirst] using this

lemma d30k_length : d30k.length = 30000 := by
  show (List.replicate 30000 'a').length = 30000
  exact List.length_replicate 30000 'a'

lemma reviewDiff_two30k (n1 n2 : String) (answer : Bool) (a b : String)
    (ha : a.length = 30000) (hb : b.length = 30000) :
    reviewDiff [(n1, FileOutcome.diffText a), (n2, FileOutcome.diffText b)] answer
      = some ([(n1, a)], 1) := by
  unfold reviewDiff
  unfold processTargets
  simp only []
  norm_num [ha, hb, DIFF_SIZE_LIMIT]
  unfold processTargets
  norm_num [ha, hb, DIFF_SIZE_LIMIT]

lemma reviewDiff_absent_two30k (n0 n1 n2 : String) (answer : Bool) (a b : String)
    (ha : a.length = 30000) (hb : b.length = 30000) :
    reviewDiff [(n0, FileOutcome.absent), (n1, FileOutcome.diffText a),
                (n2, FileOutcome.diffText b)] answer = some ([(n1, a)], 2) := by
  unfold reviewDiff
  unfold processTargets
  simp only []
  norm_num [ha, hb, DIFF_SIZE_LIMIT]
  unfold processTargets
  norm_num [ha, hb, DIFF_SIZE_LIMIT]
  unfold processTargets
  norm_num [ha, hb, DIFF_SIZE_LIMIT]

lemma bigDiff_length : bigDiff.length = 50001 := by
  show (List.replicate 50001 'x').length = 50001
  exact List.length_replicate 50001 'x'

/-! ## Claim theorems -/

/-- Claim C1, counterexample.  The claim says an absent (no-change) file
contributes nothing to the final skipped count.  With an absent file
selected first and two 30,000-character diffs after it, the size-limit stop
at the third file reports `skipped = 2`; removing the absent file from the
selection yields `skipped = 1` on the same diffs, so the absent file was
counted. -/
theorem claim1_absent_counted_cex :
    reviewDiff [("f1", FileOutcome.absent), ("f2", FileOutcome.diffText d30k),
                ("f3", FileOutcome.diffText d30k)] true = some ([("f2", d30k)], 2) ∧
    reviewDiff [("f2", FileOutcome.diffText d30k), ("f3", FileOutcome.diffText d30k)] true
      = some ([("f2", d30k)], 1) :=
  ⟨reviewDiff_absent_two30k "f1" "f2" "f3" true d30k d30k d30k_length d30k_length,
   reviewDiff_two30k "f2" "f3" true d30k d30k d30k_length d30k_length⟩

/-- Claim C1, amended.  A selected file whose diff resolution returns absent
leaves `skipped` and the accepted diffs unchanged at the moment it is
processed (the loop continues identically), but it is not removed from the
total selected count, so a later size-limit stop — which adds
`targets.length − accepted.length` — does count it: in the run
`[absent, 30k, 30k]` the delivered skipped count is 2. -/
theorem claim1_absent_file_amended :
    (∀ (total : Nat) (answer : Bool) (name : String)
       (rest : List (String × FileOutcome)) (diffs : List (String × String))
       (totalSize sk : Nat),
      processTargets total answer ((name, FileOutcome.absent) :: rest) diffs totalSize sk
        = processTargets total answer rest diffs totalSize sk)
    ∧ reviewDiff [("f1", FileOutcome.absent), ("f2", FileOutcome.diffText d30k),
                  ("f3", FileOutcome.diffText d30k)] true = some ([("f2", d30k)], 2) :=
  ⟨fun _ _ _ _ _ _ _ => by rw [processTargets],
   reviewDiff_absent_two30k "f1" "f2" "f3" true d30k d30k d30k_length d30k_length⟩

/-- Claim C2: when the first acceptable diff alone exceeds the
50,000-character limit (no diff accepted yet), cancelling delivers nothing,
and confirming delivers exactly the first 50,000 characters of that file's
diff with `skipped` increased by the total selected count minus one, and no
further file processed. -/
theorem claim2_first_file_truncation :
    (∀ (total sk : Nat) (name d : String) (rest : List (String × FileOutcome)),
      d.length > DIFF_SIZE_LIMIT →
      processTargets total true ((name, FileOutcome.diffText d) :: rest) [] 0 sk
          = some ([(name, sliceTo d DIFF_SIZE_LIMIT)], sk + (total - 1)) ∧
        processTargets total false ((name, FileOutcome.diffText d) :: rest) [] 0 sk = none)
    ∧ (∀ (name d : String) (rest : List (String × FileOutcome)),
      d.length > DIFF_SIZE_LIMIT →
      reviewDiff ((name, FileOutcome.diffText d) :: rest) true
          = some ([(name, sliceTo d DIFF_SIZE_LIMIT)],
                  ((name, FileOutcome.diffText d) :: rest).length - 1) ∧
        reviewDiff ((name, FileOutcome.diffText d) :: rest) false = none ∧
        (sliceTo d DIFF_SIZE_LIMIT).length = DIFF_SIZE_LIMIT) := by
  have hloop : ∀ (total sk : Nat) (name d : String) (rest : List (String × FileOutcome)),
      d.length > DIFF_SIZE_LIMIT →
      processTargets total true ((name, FileOutcome.diffText d) :: rest) [] 0 sk
          = some ([(name, sliceTo d DIFF_SIZE_LIMIT)], sk + (total - 1)) ∧
        processTargets total false ((name, FileOutcome.diffText d) :: rest) [] 0 sk = none := by
    intro total sk name d rest h
    refine ⟨?_, ?_⟩
    · rw [processTargets]
      dsimp only
      rw [if_pos (show 0 + d.length > DIFF_SIZE_LIMIT by omega)]
      simp
    · rw [processTargets]
      dsimp only
      rw [if_pos (show 0 + d.length > DIFF_SIZE_LIMIT by omega)]
      simp
  refine ⟨hloop, ?_⟩
  intro name d rest h
  have h2 := hloop ((name, FileOutcome.diffText d) :: rest).length 0 name d rest h
  refine ⟨?_, ?_, ?_⟩
  · unfold reviewDiff
    rw [h2.1]
    simp
  · unfold reviewDiff
    rw [h2.2]
  · rw [sliceTo_length]
    exact min_eq_left (Nat.le_of_lt h)

/-- Claim C2 witness at a concrete 50,001-character diff. -/
theorem claim2_first_file_truncation_witness :
    bigDiff.length > DIFF_SIZE_LIMIT ∧
    (reviewDiff [("huge", FileOutcome.diffText bigDiff)] true
        = some ([("huge", sliceTo bigDiff DIFF_SIZE_LIMIT)],
                ([("huge", FileOutcome.diffText bigDiff)] :
                  List (String × FileOutcome)).length - 1) ∧
      reviewDiff [("huge", FileOutcome.diffText bigDiff)] false = none ∧
      (sliceTo bigDiff DIFF_SIZE_LIMIT).length = DIFF_SIZE_LIMIT) :=
  ⟨by rw [bigDiff_length]; norm_num [DIFF_SIZE_LIMIT],
   claim2_first_file_truncation.2 "huge" bigDiff []
     (by rw [bigDiff_length]; norm_num [DIFF_SIZE_LIMIT])⟩

/-- Claim C3: when a later file's diff would push the running total over the
limit while at least one diff is accepted, `skipped` is increased by
`targets.length − accepted.length` and the loop stops with the accepted
diffs unchanged (the overflowing file is never retried); in particular two
30,000-character diffs end with `accepted = [file1]`, `skipped = 1`. -/
theorem claim3_skip_remaining :
    (∀ (total : Nat) (answer : Bool) (name d : String)
       (rest : List (String × FileOutcome)) (diffs : List (String × String))
       (totalSize sk : Nat),
      diffs.length ≠ 0 → totalSize + d.length > DIFF_SIZE_LIMIT →
      processTargets total answer ((name, FileOutcome.diffText d) :: rest) diffs totalSize sk
        = some (diffs, sk + (total - diffs.length)))
    ∧ (∀ (answer : Bool) (a b : String), a.length = 30000 → b.length = 30000 →
      reviewDiff [("file1", FileOutcome.diffText a), ("file2", FileOutcome.diffText b)] answer
        = some ([("file1", a)], 1)) := by
  refine ⟨?_, ?_⟩
  · intro total answer name d rest diffs totalSize sk hne hover
    rw [processTargets]
    dsimp only
    rw [if_pos hover, if_neg hne]
  · intro answer a b ha hb
    exact reviewDiff_two30k "file1" "file2" answer a b ha hb

/-- Claim C3 witness at two concrete 30,000-character diffs. -/
theorem claim3_skip_remaining_witness :
    d30k.length = 30000 ∧
    reviewDiff [("file1", FileOutcome.diffText d30k), ("file2", FileOutcome.diffText d30k)] true
      = some ([("file1", d30k)], 1) :=
  ⟨d30k_length, claim3_skip_remaining.2 true d30k d30k d30k_length d30k_length⟩

/-- Claim C10: every delivered run satisfies the size invariant — each
accepted diff is at most 50,000 characters and the lengths of all accepted
diffs sum to at most 50,000. -/
theorem claim10_size_invariant (targets : List (String × FileOutcome))
    (answer : Bool) (diffs : List (String × String)) (sk : Nat)
    (h : reviewDiff targets answer = some (diffs, sk)) :
    (∀ p ∈ diffs, p.2.length ≤ DIFF_SIZE_LIMIT) ∧
      (diffs.map (fun p => p.2.length)).sum ≤ DIFF_SIZE_LIMIT := by
  unfold reviewDiff at h
  cases hres : processTargets targets.length answer targets [] 0 0 with
  | none =>
    rw [hres] at h
    cases h
  | some p =>
    obtain ⟨ds, k⟩ := p
    rw [hres] at h
    dsimp only at h
    by_cases hz : ds.length = 0
    · rw [if_pos hz] at h
      cases h
    · rw [if_neg hz] at h
      cases h
      exact processTargets_sizeInv targets targets.length answer [] 0 0 (diffs, sk) hres rfl
        (by simp) (by simp)

/-- Claim C10 witness at a concrete delivered run. -/
theorem claim10_size_invariant_witness :
    reviewDiff [("f", FileOutcome.diffText "abc")] true = some ([("f", "abc")], 0) ∧
    ((∀ p ∈ ([("f", "abc")] : List (String × String)), p.2.length ≤ DIFF_SIZE_LIMIT) ∧
      (([("f", "abc")] : List (String × String)).map (fun p => p.2.length)).sum
        ≤ DIFF_SIZE_LIMIT) :=
  ⟨by decide,
   claim10_size_invariant [("f", FileOutcome.diffText "abc")] true [("f", "abc")] 0
     (by decide)⟩

/-- Claim C4, counterexample.  The claim says that for a path the git API
does not recognize, the resolver produces an svn diff exactly when some
ancestor directory contains the `.svn` marker, and absent only when none
does.  Here the root directory carries a `.svn` marker (and `svn diff`
would produce `SVNDIFF`), but the walk stops first at the nearer `.git`
marker of directory `sub`, so the resolver returns absent. -/
theorem claim4_marker_walk_cex :
    getFileDiffText none (Except.ok "") svnCtxCE gitMarkerCE svnMarkerCE
        ["f", "sub"] "/sub/f" "sub/f" = Except.ok none ∧
    svnMarkerCE [] = true ∧
    [] ∈ ancestors (["f", "sub"] : List String).tail ∧
    getDiffTextSvn svnCtxCE [] "sub/f" = Except.ok (some "SVNDIFF") :=
  ⟨rfl, rfl, by decide, rfl⟩

/-- Claim C4, amended.  For a path the git API does not recognize, the walk
tests each ancestor for a `.git` marker before a `.svn` marker: the svn
backend is selected exactly when the first ancestor containing either
marker contains `.svn` and not `.git`; the result is absent when no
ancestor contains either marker, and also when the first marker found is
`.git`. -/
theorem claim4_marker_walk_amended :
    ∀ (g s : List String → Bool) (filePath r : List String)
      (ctx : SvnCtx) (gitFC : Except Unit String) (fsPath rel : String),
    (findScmRoot g s filePath = some (r, ScmType.svn) ↔
      ((ancestors filePath.tail).find? (fun a => g a || s a) = some r ∧
        g r = false ∧ s r = true))
    ∧ (findScmRoot g s filePath = some (r, ScmType.svn) →
       getFileDiffText none gitFC ctx g s filePath fsPath rel = getDiffTextSvn ctx r rel)
    ∧ ((∀ a ∈ ancestors filePath.tail, g a = false ∧ s a = false) →
       getFileDiffText none gitFC ctx g s filePath fsPath rel = Except.ok none)
    ∧ (findScmRoot g s filePath = some (r, ScmType.git) →
       getFileDiffText none gitFC ctx g s filePath fsPath rel = Except.ok none) := by
  intro g s filePath r ctx gitFC fsPath rel
  have hiff : findScmRoot g s filePath = some (r, ScmType.svn) ↔
      ((ancestors filePath.tail).find? (fun a => g a || s a) = some r ∧
        g r = false ∧ s r = true) := by
    rw [findScmRoot, scmWalk_eq_find]
    constructor
    · intro h
      cases hf : (ancestors filePath.tail).find? (fun a => g a || s a) with
      | none =>
        rw [hf] at h
        cases h
      | some r' =>
        rw [hf] at h
        rw [Option.map_some'] at h
        have hpair := Option.some.inj h
        by_cases hg : g r'
        · rw [if_pos hg] at hpair
          cases congrArg Prod.snd hpair
        · rw [if_neg hg] at hpair
          have hr : r' = r := congrArg Prod.fst hpair
          subst hr
          have hp := List.find?_some hf
          simp only [Bool.or_eq_true] at hp
          refine ⟨rfl, by simpa using hg, ?_⟩
          rcases hp with hp | hp
          · exact absurd hp hg
          · exact hp
    · rintro ⟨hf, hg, hs⟩
      rw [hf, Option.map_some', hg]
      rfl
  refine ⟨hiff, ?_, ?_, ?_⟩
  · intro h
    show (match findScmRoot g s filePath with
          | some (root, ScmType.svn) => getDiffTextSvn ctx root rel
          | _ => Except.ok none) = getDiffTextSvn ctx r rel
    rw [h]
  · intro hall
    have hnone : (ancestors filePath.tail).find? (fun a => g a || s a) = none :=
      List.find?_eq_none.mpr (fun a ha => by simp [(hall a ha).1, (hall a ha).2])
    show (match findScmRoot g s filePath with
          | some (root, ScmType.svn) => getDiffTextSvn ctx root rel
          | _ => Except.ok none) = Except.ok none
    rw [findScmRoot, scmWalk_eq_find, hnone]
    rfl
  · intro h
    show (match findScmRoot g s filePath with
          | some (root, ScmType.svn) => getDiffTextSvn ctx root rel
          | _ => Except.ok none) = Except.ok none
    rw [h]

/-- Claim C4 witness: with no `.git` marker anywhere and `.svn` at the
root, the dispatcher hands the file to the svn backend at that root. -/
theorem claim4_marker_walk_amended_witness :
    findScmRoot gitMarkerNone svnMarkerRoot ["f", "sub"] = some ([], ScmType.svn) ∧
    getFileDiffText none (Except.ok "") svnCtxCE gitMarkerNone svnMarkerRoot
        ["f", "sub"] "/sub/f" "sub/f" = getDiffTextSvn svnCtxCE [] "sub/f" :=
  ⟨by decide,
   (claim4_marker_walk_amended gitMarkerNone svnMarkerRoot ["f", "sub"] [] svnCtxCE
       (Except.ok "") "/sub/f" "sub/f").2.1 (by decide)⟩

/-- Claim C5, counterexample.  The claim says no DiffText returned by the
resolver contains a null byte.  On the ordinary modified path the backend's
`diffWithHEAD` output is returned verbatim with no binary check: a backend
output `a\x00b` is passed through although it contains a null byte. -/
theorem claim5_nullbyte_cex :
    getDiffTextGit repoNullDiff (Except.ok "") "f.bin" "f.bin"
      = Except.ok (some nullDiffStr) ∧
    isBinary nullDiffStr = true :=
  ⟨rfl, rfl⟩

/-- Claim C5, amended.  DiffTexts produced by the synthesis paths — git
untracked/intent-to-add and deleted/index-deleted, svn added/unversioned
and deleted/missing via the `svn cat` fallback — never contain a null byte
(for a relative path free of null bytes); diff texts returned verbatim from
the backends' native diff operations are not checked. -/
theorem claim5_nullbyte_amended :
    (∀ (repo : GitRepo) (fc : Except Unit String) (fp rel d : String),
      isBinary rel = false →
      (gitStatusOf repo fp = some GitStatus.untracked ∨
       gitStatusOf repo fp = some GitStatus.intentToAdd ∨
       gitStatusOf repo fp = some GitStatus.deleted ∨
       gitStatusOf repo fp = some GitStatus.indexDeleted) →
      getDiffTextGit repo fc fp rel = Except.ok (some d) →
      isBinary d = false)
    ∧ (∀ (ctx : SvnCtx) (root : List String) (rel d : String),
      isBinary rel = false →
      (ctx.statusOf root = some SvnStat.added ∨
       ctx.statusOf root = some SvnStat.unversioned ∨
       ((ctx.statusOf root = some SvnStat.deletedS ∨
         ctx.statusOf root = some SvnStat.missing) ∧ ctx.diffOutput root = none)) →
      getDiffTextSvn ctx root rel = Except.ok (some d) →
      isBinary d = false) := by
  constructor
  · intro repo fc fp rel d hrel hst hres
    unfold getDiffTextGit at hres
    have handle : ∀ (res : Except Unit String) (pfx : Char) (fh th : String),
        (pfx == '\x00') = false → isBinary fh = false → isBinary th = false →
        (match res with
         | Except.error e => Except.error e
         | Except.ok content =>
           if isBinary content then Except.ok none
           else Except.ok (some (buildPseudoDiff rel content pfx fh th)))
          = Except.ok (some d) →
        isBinary d = false := by
      intro res pfx fh th hp hfh hth hres2
      cases res with
      | error e => exact Except.noConfusion hres2
      | ok content =>
        dsimp only at hres2
        by_cases hbin : isBinary content
        · rw [if_pos hbin] at hres2
          exact Option.noConfusion (Except.ok.inj hres2)
        · rw [if_neg hbin] at hres2
          have hd := Option.some.inj (Except.ok.inj hres2)
          rw [← hd]
          exact isBinary_buildPseudoDiff rel content pfx fh th (by simpa using hbin)
            hfh hth hp
    rcases hst with h | h | h | h <;> rw [h] at hres <;> dsimp only at hres
    · exact handle fc '+' "/dev/null" ("b/" ++ rel) (by decide) (by decide)
        (by rw [isBinary_append, hrel]; decide) hres
    · exact handle fc '+' "/dev/null" ("b/" ++ rel) (by decide) (by decide)
        (by rw [isBinary_append, hrel]; decide) hres
    · exact handle (repo.showHEAD fp) '-' ("a/" ++ rel) "/dev/null" (by decide)
        (by rw [isBinary_append, hrel]; decide) (by decide) hres
    · exact handle (repo.showHEAD fp) '-' ("a/" ++ rel) "/dev/null" (by decide)
        (by rw [isBinary_append, hrel]; decide) (by decide) hres
  · intro ctx root rel d hrel hst hres
    unfold getDiffTextSvn at hres
    rcases hst with h | h | ⟨h, hdiff⟩
    · rw [h] at hres
      dsimp only at hres
      cases hfc : ctx.fileContent with
      | error e =>
        rw [hfc] at hres
        exact Except.noConfusion hres
      | ok content =>
        rw [hfc] at hres
        dsimp only at hres
        by_cases hbin : isBinary content
        · rw [if_pos hbin] at hres
          exact Option.noConfusion (Except.ok.inj hres)
        · rw [if_neg hbin] at hres
          have hd := Option.some.inj (Except.ok.inj hres)
          rw [← hd]
          exact isBinary_buildPseudoDiff rel content '+' "/dev/null" ("b/" ++ rel)
            (by simpa using hbin) (by decide) (by rw [isBinary_append, hrel]; decide)
            (by decide)
    · rw [h] at hres
      dsimp only at hres
      cases hfc : ctx.fileContent with
      | error e =>
        rw [hfc] at hres
        exact Except.noConfusion hres
      | ok content =>
        rw [hfc] at hres
        dsimp only at hres
        by_cases hbin : isBinary content
        · rw [if_pos hbin] at hres
          exact Option.noConfusion (Except.ok.inj hres)
        · rw [if_neg hbin] at hres
          have hd := Option.some.inj (Except.ok.inj hres)
          rw [← hd]
          exact isBinary_buildPseudoDiff rel content '+' "/dev/null" ("b/" ++ rel)
            (by simpa using hbin) (by decide) (by rw [isBinary_append, hrel]; decide)
            (by decide)
    · rcases h with h | h <;> rw [h] at hres <;> dsimp only at hres <;>
        rw [hdiff] at hres <;> dsimp only at hres
      · cases hbc : ctx.baseContent root with
        | none =>
          rw [hbc] at hres
          exact Option.noConfusion (Except.ok.inj hres)
        | some content =>
          rw [hbc] at hres
          dsimp only at hres
          by_cases hbin : isBinary content
          · rw [if_pos hbin] at hres
            exact Option.noConfusion (Except.ok.inj hres)
          · rw [if_neg hbin] at hres
            have hd := Option.some.inj (Except.ok.inj hres)
            rw [← hd]
            exact isBinary_buildPseudoDiff rel content '-' ("a/" ++ rel) "/dev/null"
              (by simpa using hbin) (by rw [isBinary_append, hrel]; decide) (by decide)
              (by decide)
      · cases hbc : ctx.baseContent root with
        | none =>
          rw [hbc] at hres
          exact Option.noConfusion (Except.ok.inj hres)
        | some content =>
          rw [hbc] at hres
          dsimp only at hres
          by_cases hbin : isBinary content
          · rw [if_pos hbin] at hres
            exact Option.noConfusion (Except.ok.inj hres)
          · rw [if_neg hbin] at hres
            have hd := Option.some.inj (Except.ok.inj hres)
            rw [← hd]
            exact isBinary_buildPseudoDiff rel content '-' ("a/" ++ rel) "/dev/null"
              (by simpa using hbin) (by rw [isBinary_append, hrel]; decide) (by decide)
              (by decide)

/-- Claim C5 witness: a concrete untracked text file produces a null-free
synthesized diff. -/
theorem claim5_nullbyte_amended_witness :
    isBinary "n.txt" = false ∧
    gitStatusOf repoUntracked "n.txt" = some GitStatus.untracked ∧
    getDiffTextGit repoUntracked (Except.ok "hello\n") "n.txt" "n.txt"
      = Except.ok (some "--- /dev/null\n+++ b/n.txt\n@@ -0,0 +1,1 @@\n+hello") ∧
    isBinary "--- /dev/null\n+++ b/n.txt\n@@ -0,0 +1,1 @@\n+hello" = false :=
  ⟨by decide, by decide, rfl,
   claim5_nullbyte_amended.1 repoUntracked (Except.ok "hello\n") "n.txt" "n.txt"
     "--- /dev/null\n+++ b/n.txt\n@@ -0,0 +1,1 @@\n+hello"
     (by decide) (Or.inl (by decide)) rfl⟩

/-- Claim C6, amended.  With a non-blank custom prompt configured for the
resolved language: when the prompt contains the placeholder, the assembled
output is the custom text with the first placeholder occurrence replaced by
the `GetSubstitution` processing of the diff body (JS `replace` treats
`$$`, `$&`, `$` + backquote and `$` + apostrophe in the replacement as
special even for a string pattern), followed by the skip footer; when the
body contains no `$` this coincides with replacing the placeholder by the
body verbatim.  When the prompt does not contain the placeholder, the
output is the custom text, a blank line, the body, and the footer. -/
theorem claim6_custom_prompt :
    ∀ (cfg : Config) (diffs : List (String × String)) (k : Nat) (tpl : PromptTemplate),
    lookupTemplate (resolveLanguage cfg.reviewLanguage cfg.vscodeLanguage) = some tpl →
    jsTrim (cfg.reviewPromptFor (resolveLanguage cfg.reviewLanguage cfg.vscodeLanguage))
        ≠ "" →
    ((∀ pre post : List Char,
       (cfg.reviewPromptFor (resolveLanguage cfg.reviewLanguage cfg.vscodeLanguage)).data
          = pre ++ PLACEHOLDER.data ++ post →
       (∀ i, i < pre.length →
          isPre PLACEHOLDER.data ((pre ++ PLACEHOLDER.data ++ post).drop i) = false) →
       buildPrompt cfg diffs k
          = String.mk (pre
              ++ getSubstitution PLACEHOLDER.data pre post (promptBody tpl diffs).data
              ++ post) ++ skipFooter tpl k
         ∧ ('$' ∉ (promptBody tpl diffs).data →
            buildPrompt cfg diffs k
              = String.mk (pre ++ (promptBody tpl diffs).data ++ post)
                  ++ skipFooter tpl k))
     ∧ (hasSub PLACEHOLDER.data
          (cfg.reviewPromptFor (resolveLanguage cfg.reviewLanguage cfg.vscodeLanguage)).data
            = false →
        buildPrompt cfg diffs k
          = cfg.reviewPromptFor (resolveLanguage cfg.reviewLanguage cfg.vscodeLanguage)
              ++ "\n\n" ++ promptBody tpl diffs ++ skipFooter tpl k)) := by
  intro cfg diffs k tpl htpl hne
  constructor
  · intro pre post hsplit hfirst
    have hsubst : buildPrompt cfg diffs k
        = String.mk (pre
            ++ getSubstitution PLACEHOLDER.data pre post (promptBody tpl diffs).data
            ++ post) ++ skipFooter tpl k := by
      unfold buildPrompt
      dsimp only
      rw [htpl]
      simp only [Option.getD_some]
      rw [if_pos hne]
      have hcontains : hasSub PLACEHOLDER.data
          (cfg.reviewPromptFor (resolveLanguage cfg.reviewLanguage cfg.vscodeLanguage)).data
            = true :=
        (hasSub_iff _ _).mpr ⟨pre, post, hsplit⟩
      rw [if_pos hcontains, hsplit,
        replFirst_append PLACEHOLDER.data (promptBody tpl diffs).data pre post
          (by decide) hfirst]
    refine ⟨hsubst, fun hnd => ?_⟩
    rw [hsubst, getSubstitution_no_dollar _ _ _ _ hnd]
  · intro hno
    unfold buildPrompt
    dsimp only
    rw [htpl]
    simp only [Option.getD_some]
    rw [if_pos hne, if_neg (by simp [hno])]

/-- Claim C6 counterexample.  The original claim says the output equals the
custom text with the placeholder replaced by the diff body.  With custom
prompt `A` + placeholder + `B` and a diff body containing `$$`, the
replacement's `$`-substitution collapses `$$` to `$`, so the delivered
prompt differs from the claimed verbatim splice, and instead equals the
splice of the `GetSubstitution`-processed body. -/
theorem claim6_dollar_cex :
    jsTrim (cfgDollar.reviewPromptFor
        (resolveLanguage cfgDollar.reviewLanguage cfgDollar.vscodeLanguage)) ≠ "" ∧
    (cfgDollar.reviewPromptFor
        (resolveLanguage cfgDollar.reviewLanguage cfgDollar.vscodeLanguage)).data
      = "A".data ++ PLACEHOLDER.data ++ "B".data ∧
    buildPrompt cfgDollar [("f", "$$")] 0
      ≠ String.mk ("A".data ++ (promptBody enTemplate [("f", "$$")]).data ++ "B".data)
          ++ skipFooter enTemplate 0 ∧
    buildPrompt cfgDollar [("f", "$$")] 0
      = String.mk ("A".data
          ++ getSubstitution PLACEHOLDER.data "A".data "B".data
              (promptBody enTemplate [("f", "$$")]).data
          ++ "B".data) ++ skipFooter enTemplate 0 :=
  ⟨by decide, by decide, by decide, by decide⟩

/-- Claim C6 witness at the spec's own example, custom prompt
`Focus on security.` followed by a blank line and the placeholder, with a
dollar-free body (so the substitution is the verbatim splice). -/
theorem claim6_custom_prompt_witness :
    lookupTemplate (resolveLanguage cfgCustom.reviewLanguage cfgCustom.vscodeLanguage)
        = some enTemplate ∧
    jsTrim (cfgCustom.reviewPromptFor
        (resolveLanguage cfgCustom.reviewLanguage cfgCustom.vscodeLanguage)) ≠ "" ∧
    '$' ∉ (promptBody enTemplate [("a.ts", "DIFF")]).data ∧
    buildPrompt cfgCustom [("a.ts", "DIFF")] 1
      = String.mk ("Focus on security.\n\n".data
          ++ getSubstitution PLACEHOLDER.data "Focus on security.\n\n".data []
              (promptBody enTemplate [("a.ts", "DIFF")]).data ++ [])
          ++ skipFooter enTemplate 1 ∧
    buildPrompt cfgCustom [("a.ts", "DIFF")] 1
      = String.mk ("Focus on security.\n\n".data
          ++ (promptBody enTemplate [("a.ts", "DIFF")]).data ++ [])
          ++ skipFooter enTemplate 1 :=
  ⟨rfl, by decide, by decide,
   ((claim6_custom_prompt cfgCustom [("a.ts", "DIFF")] 1 enTemplate rfl (by decide)).1
     "Focus on security.\n\n".data [] (by decide) (by decide)).1,
   ((claim6_custom_prompt cfgCustom [("a.ts", "DIFF")] 1 enTemplate rfl (by decide)).1
     "Focus on security.\n\n".data [] (by decide) (by decide)).2 (by decide)⟩

/-- Claim C7: language resolution.  A configured value other than `auto`
resolves to itself when it is a supported code and to the English default
otherwise; under `auto`, a lower-cased locale tag starting with `zh`
resolves to `zh-cn`, and otherwise its first two characters are used when
supported, else the default. -/
theorem claim7_resolve_language :
    ∀ configured locale : String,
    (configured ≠ "auto" →
       resolveLanguage configured locale =
         if configured ∈ supportedCodes then configured else DEFAULT_LANG)
    ∧ (configured = "auto" →
       (isPre "zh".data (toLowerStr locale).data = true →
          resolveLanguage configured locale = "zh-cn")
       ∧ (isPre "zh".data (toLowerStr locale).data = false →
          resolveLanguage configured locale =
            if String.mk ((toLowerStr locale).data.take 2) ∈ supportedCodes
            then String.mk ((toLowerStr locale).data.take 2) else DEFAULT_LANG)) := by
  intro configured locale
  constructor
  · intro hne
    rw [resolveLanguage, if_pos hne]
    by_cases hmem : configured ∈ supportedCodes
    · rw [if_pos ((lookupTemplate_isSome_iff configured).mpr hmem), if_pos hmem]
    · rw [if_neg (fun hc => hmem ((lookupTemplate_isSome_iff configured).mp hc)),
        if_neg hmem]
  · intro heq
    subst heq
    rw [resolveLanguage, if_neg (fun h => h rfl)]
    dsimp only
    constructor
    · intro hzh
      rw [if_pos hzh]
    · intro hzh
      rw [if_neg (by simp [hzh])]
      by_cases hmem : String.mk ((toLowerStr locale).data.take 2) ∈ supportedCodes
      · rw [if_pos ((lookupTemplate_isSome_iff _).mpr hmem), if_pos hmem]
      · rw [if_neg (fun hc => hmem ((lookupTemplate_isSome_iff _).mp hc)),
          if_neg hmem]

/-- Claim C7 witness: `auto` with locale `zh-TW` resolves to `zh-cn`. -/
theorem claim7_resolve_language_witness :
    isPre "zh".data (toLowerStr "zh-TW").data = true ∧
    resolveLanguage "auto" "zh-TW" = "zh-cn" :=
  ⟨by decide, ((claim7_resolve_language "auto" "zh-TW").2 rfl).1 (by decide)⟩

/-- Unfolding equation of `buildPseudoDiff` (its `let`s inlined). -/
lemma buildPseudoDiff_eq (rel c : String) (pfx : Char) (fh th : String) :
    buildPseudoDiff rel c pfx fh th =
      joinWith "\n" (("--- " ++ fh) :: ("+++ " ++ th) ::
        (if pfx = '+' then
          "@@ -0,0 +1," ++
            toString (popTrailingEmpty
              ((splitOnChar '\n' c.data).map String.mk)).length ++ " @@"
         else
          "@@ -1," ++
            toString (popTrailingEmpty
              ((splitOnChar '\n' c.data).map String.mk)).length ++ " +0,0 @@") ::
        (popTrailingEmpty ((splitOnChar '\n' c.data).map String.mk)).map
          (fun line => String.mk (pfx :: line.data))) := rfl

/-- Claim C8: for new-file content whose split ends in one empty piece
(trailing newline), the synthesized diff consists of the headers
`--- /dev/null`, `+++ b/<relativePath>`, the hunk header `@@ -0,0 +1,k @@`
for `k` the number of lines, and exactly `k` lines each prefixed `+`. -/
theorem claim8_new_file_diff (rel c : String) (ls : List String)
    (h : (splitOnChar '\n' c.data).map String.mk = ls ++ [""]) :
    buildPseudoDiff rel c '+' "/dev/null" ("b/" ++ rel) =
      joinWith "\n" ("--- /dev/null" :: ("+++ b/" ++ rel) ::
        ("@@ -0,0 +1," ++ toString ls.length ++ " @@") ::
        ls.map (fun l => "+" ++ l)) ∧
    (ls.map (fun l => "+" ++ l)).length = ls.length ∧
    (∀ x ∈ ls.map (fun l => "+" ++ l), ∃ t, x = "+" ++ t) := by
  have h2 : popTrailingEmpty ((splitOnChar '\n' c.data).map String.mk) = ls := by
    rw [h]
    unfold popTrailingEmpty
    rw [List.getLast?_concat]
    rw [if_pos rfl, List.dropLast_concat]
  refine ⟨?_, List.length_map ls _, ?_⟩
  · rw [buildPseudoDiff_eq, h2]
    rfl
  · intro x hx
    rcases List.mem_map.mp hx with ⟨l, _, rfl⟩
    exact ⟨l, rfl⟩

/-- Claim C8 witness at two lines of content with a trailing newline. -/
theorem claim8_new_file_diff_witness :
    ((splitOnChar '\n' ("alpha\nbeta\n" : String).data).map String.mk
        = ["alpha", "beta"] ++ [""]) ∧
    buildPseudoDiff "x.ts" "alpha\nbeta\n" '+' "/dev/null" ("b/" ++ "x.ts") =
      joinWith "\n" ("--- /dev/null" :: ("+++ b/" ++ "x.ts") ::
        ("@@ -0,0 +1," ++ toString (["alpha", "beta"] : List String).length ++ " @@") ::
        (["alpha", "beta"] : List String).map (fun l => "+" ++ l)) :=
  ⟨by decide,
   (claim8_new_file_diff "x.ts" "alpha\nbeta\n" ["alpha", "beta"] (by decide)).1⟩

/-- Claim C9: for deleted-file baseline content, after dropping the one
trailing empty piece a final newline produces, the synthesized diff
consists of the headers `--- a/<relativePath>`, `+++ /dev/null`, the hunk
header `@@ -1,k +0,0 @@` for `k` the number of lines, and exactly `k`
lines each prefixed `-`. -/
theorem claim9_deleted_file_diff (rel c : String) (ls : List String)
    (h : popTrailingEmpty ((splitOnChar '\n' c.data).map String.mk) = ls) :
    buildPseudoDiff rel c '-' ("a/" ++ rel) "/dev/null" =
      joinWith "\n" (("--- a/" ++ rel) :: "+++ /dev/null" ::
        ("@@ -1," ++ toString ls.length ++ " +0,0 @@") ::
        ls.map (fun l => "-" ++ l)) ∧
    (ls.map (fun l => "-" ++ l)).length = ls.length ∧
    (∀ x ∈ ls.map (fun l => "-" ++ l), ∃ t, x = "-" ++ t) := by
  refine ⟨?_, List.length_map ls _, ?_⟩
  · rw [buildPseudoDiff_eq, h]
    rfl
  · intro x hx
    rcases List.mem_map.mp hx with ⟨l, _, rfl⟩
    exact ⟨l, rfl⟩

/-- Claim C9 witness at two lines of baseline content without a trailing
newline. -/
theorem claim9_deleted_file_diff_witness :
    (popTrailingEmpty ((splitOnChar '\n' ("old1\nold2" : String).data).map String.mk)
        = ["old1", "old2"]) ∧
    buildPseudoDiff "y.ts" "old1\nold2" '-' ("a/" ++ "y.ts") "/dev/null" =
      joinWith "\n" (("--- a/" ++ "y.ts") :: "+++ /dev/null" ::
        ("@@ -1," ++ toString (["old1", "old2"] : List String).length ++ " +0,0 @@") ::
        (["old1", "old2"] : List String).map (fun l => "-" ++ l)) :=
  ⟨by decide,
   (claim9_deleted_file_diff "y.ts" "old1\nold2" ["old1", "old2"] (by decide)).1⟩
